import Mathlib

/-!
Shallow embedding of the Triton GEMM IR emitter
(`xla/service/gpu/ir_emitter_triton.cc`) and proofs about its
dimension analysis, launch planning, address building, reduction
masking, mixed-precision guard, and pre-flight checks.

Machine integers of the source (`int`, `int64_t`) are modelled by `Nat`
(all values involved in the modelled computations are non-negative and
far from overflow at the points the claims are about); where C++ signed
division/remainder occurs, the operands are non-negative in the modelled
range, so `Nat` division/remainder coincides with the C++ semantics.
Fallible code (`absl::Status` / `TF_RET_CHECK` / `CHECK`) is modelled
with `Option` / `Except`.
-/

namespace Triton

/-- Status kinds of the `absl::Status` values produced in this file's
modelled code paths. -/
inductive StatusCode where
  | ok
  | cancelled
  | resourceExhausted
  | internal
  deriving DecidableEq, Repr

/-- Payload markers attached to a status (only `kUncompilableFusion` is
used by the modelled code). -/
inductive StatusPayload where
  | uncompilableFusion
  deriving DecidableEq, Repr

/-- An `absl::Status`: a code plus an optional payload. -/
structure Status where
  code : StatusCode
  payload : Option StatusPayload
  deriving DecidableEq, Repr

/-- `UncompilableMatmul`: a `CancelledError` carrying the
`kUncompilableFusion` payload (ir_emitter_triton.cc:1271-1275). -/
def UncompilableMatmul : Status :=
  { code := StatusCode.cancelled, payload := some StatusPayload.uncompilableFusion }

/-- A generic `ResourceExhausted` status with no payload. -/
def ResourceExhaustedStatus : Status :=
  { code := StatusCode.resourceExhausted, payload := none }

/-- `TritonGemmConfig`: the tiling configuration supplied by the
autotuner (block sizes, split-K factor, warp count). -/
structure TritonGemmConfig where
  block_m : Nat
  block_n : Nat
  block_k : Nat
  split_k : Nat
  num_warps : Nat
  deriving DecidableEq, Repr

/-- The fixed complexity ceiling `kComplexityHeuristicLimit`
(ir_emitter_triton.cc:1898). -/
def kComplexityHeuristicLimit : Nat := 9000

/-- The complexity heuristic value
`(block_m * block_n + (block_m + block_n) * block_k) / num_warps`
(ir_emitter_triton.cc:1899-1902); all quantities are positive ints. -/
def complexityHeuristicValue (config : TritonGemmConfig) : Nat :=
  (config.block_m * config.block_n +
    (config.block_m + config.block_n) * config.block_k) / config.num_warps

/-- `CheckGemmTilingComplexityHeuristic` (ir_emitter_triton.cc:1896-1910):
returns `ResourceExhausted` when the heuristic exceeds the ceiling,
`OkStatus` otherwise.  `EmitMatMul` runs this check first
(ir_emitter_triton.cc:1922), before any IR is emitted. -/
def CheckGemmTilingComplexityHeuristic (config : TritonGemmConfig) :
    Except Status Unit :=
  if complexityHeuristicValue config > kComplexityHeuristicLimit then
    Except.error ResourceExhaustedStatus
  else
    Except.ok ()

/-- `INT_MAX` (2^31 - 1). -/
def INT_MAX : Nat := 2147483647

/-- `ShapeUtil::ElementsIn`: the number of elements of a shape, i.e. the
product of its dimension extents. -/
def ElementsIn (shapeDims : List Nat) : Nat :=
  shapeDims.foldl (· * ·) 1

/-- The 64-bit-indexing decision of `EmitMatMul`
(ir_emitter_triton.cc:1932-1935): use 64-bit indexing iff addressing
the LHS, the RHS, or the (split-K-scaled) output crosses `INT_MAX`. -/
def use_64bit_indexing (lhsShape rhsShape outShape : List Nat)
    (split_k : Nat) : Bool :=
  decide (ElementsIn lhsShape > INT_MAX) ||
  decide (ElementsIn rhsShape > INT_MAX) ||
  decide (ElementsIn outShape * split_k > INT_MAX)

/-- The index type bit width chosen by `EmitMatMul`
(ir_emitter_triton.cc:1936): 64 bits when `use_64bit_indexing`, else
32 bits. -/
def indexTypeBitWidth (lhsShape rhsShape outShape : List Nat)
    (split_k : Nat) : Nat :=
  if use_64bit_indexing lhsShape rhsShape outShape split_k then 64 else 32

/-- The three hardware grid axes (`mt::ProgramIDDim`). `X` is the
unlimited (32-bit) axis; `Y` and `Z` are capacity-limited (16-bit). -/
inductive ProgramIDDim where
  | X
  | Y
  | Z
  deriving DecidableEq, Repr

/-- `LaunchDimensions`: grid block extents and thread extents. -/
structure LaunchDimensions where
  blockDim : Nat × Nat × Nat
  threadDim : Nat × Nat × Nat
  deriving DecidableEq, Repr

/-- The fields of `MatMulDims` that the launch planner reads
(ir_emitter_triton.cc:1040-1074). -/
structure MatMulDimsFields where
  m : Nat
  n : Nat
  k : Nat
  lhs_noncontracting_split : Option Nat
  out_batch_dim_idx : Option Nat
  deriving DecidableEq, Repr

/-- The result fields of `MatMulLaunchConfig`
(ir_emitter_triton.cc:1077-1087). -/
structure MatMulLaunchConfig where
  grid_m : Nat
  grid_n : Nat
  launch_dims : LaunchDimensions
  batch_program_id_dim : ProgramIDDim
  noncontracting_program_id_dim : ProgramIDDim
  deriving DecidableEq, Repr

/-- `kBlockCountYZLimit` (ir_emitter_triton.cc:1185): the capacity of
the two limited grid axes. -/
def kBlockCountYZLimit : Nat := 65536

/-- `WarpSize()`: number of threads per warp. -/
def WarpSize : Nat := 32

/-- The `batch_size` local of the `MatMulLaunchConfig` constructor
(ir_emitter_triton.cc:1180-1183): the LHS non-contracting split
multiplier if present, else the output batch extent if a batch
dimension exists, else 1. -/
def launchBatchSize (dotShapeDims : List Nat) (dims : MatMulDimsFields) :
    Nat :=
  dims.lhs_noncontracting_split.getD
    (match dims.out_batch_dim_idx with
     | some i => dotShapeDims.getD i 0
     | none => 1)

/-- The `MatMulLaunchConfig` constructor
(ir_emitter_triton.cc:1175-1207).  The `CHECK_LT` on the total grid
size is modelled as `none`; otherwise the batch dimension goes to the
unlimited `X` axis when `batch_size >= 65536` and to the limited `Y`
axis otherwise, with the non-contracting grid on the complementary axis
and `split_k` always third. -/
def mkMatMulLaunchConfig (config : TritonGemmConfig)
    (dotShapeDims : List Nat) (dims : MatMulDimsFields) :
    Option MatMulLaunchConfig :=
  let grid_m := (dims.m + config.block_m - 1) / config.block_m
  let grid_n := (dims.n + config.block_n - 1) / config.block_n
  let batch_size := launchBatchSize dotShapeDims dims
  if batch_size * grid_m * grid_n <
      kBlockCountYZLimit * kBlockCountYZLimit then
    if batch_size ≥ kBlockCountYZLimit then
      some { grid_m := grid_m, grid_n := grid_n,
             launch_dims :=
               { blockDim := (batch_size, grid_m * grid_n, config.split_k),
                 threadDim := (config.num_warps * WarpSize, 1, 1) },
             batch_program_id_dim := ProgramIDDim.X,
             noncontracting_program_id_dim := ProgramIDDim.Y }
    else
      some { grid_m := grid_m, grid_n := grid_n,
             launch_dims :=
               { blockDim := (grid_m * grid_n, batch_size, config.split_k),
                 threadDim := (config.num_warps * WarpSize, 1, 1) },
             batch_program_id_dim := ProgramIDDim.Y,
             noncontracting_program_id_dim := ProgramIDDim.X }
  else
    none

/-- The HLO opcodes that the modelled code paths inspect. -/
inductive HloOpcode where
  | dot
  | pad
  | bitcast
  | parameter
  | constant
  | convert
  | concatenate
  | reduce
  | other
  deriving DecidableEq, Repr

/-- A miniature HLO instruction: opcode, shape dimension extents, and
operand list.  This is the fragment of `HloInstruction` that the
modelled code reads. -/
inductive HloInst where
  | mk (opcode : HloOpcode) (shapeDims : List Nat) (operands : List HloInst)

/-- Opcode accessor. -/
def HloInst.opcode : HloInst → HloOpcode
  | HloInst.mk o _ _ => o

/-- Shape dimension extents accessor. -/
def HloInst.shapeDims : HloInst → List Nat
  | HloInst.mk _ s _ => s

/-- Operand list accessor. -/
def HloInst.operandsOf : HloInst → List HloInst
  | HloInst.mk _ _ ops => ops

instance : Inhabited HloInst := ⟨HloInst.mk HloOpcode.parameter [] []⟩

/-- `instr->operand(i)`.  The C++ accessor asserts `i` is in range; the
modelled code is only applied where the operand exists, so a dummy
default instruction stands in for the out-of-range case. -/
def HloInst.operand (instr : HloInst) (i : Nat) : HloInst :=
  instr.operandsOf.getD i default

/-- The contracting-extent (`k`) resolution of `MatMulDims::Create`
(ir_emitter_triton.cc:1133-1148), as a function of the split factor,
the RHS operand of the dot, and the RHS contracting dimension index.
When `split_k > 1` and the RHS operand's producer is a pad, the code
requires the RHS operand to be a bitcast (`TF_RET_CHECK`, modelled as
`none` on failure) and reads `k` from the pre-pad shape at the
dimension just before the contracting index; otherwise
`k = rhs_contracting_extent * split_k`. -/
def resolveContractingSize (split_k : Nat) (rhs : HloInst)
    (rhsContractingIdx : Nat) : Option Nat :=
  if split_k > 1 ∧ (rhs.operand 0).opcode = HloOpcode.pad then
    if rhs.opcode = HloOpcode.bitcast then
      some (((rhs.operand 0).operand 0).shapeDims.getD
        (rhsContractingIdx - 1) 0)
    else none
  else
    some (rhs.shapeDims.getD rhsContractingIdx 0 * split_k)

/-- `group_m` (ir_emitter_triton.cc:1976): the fixed width of a group
of consecutive m-tiles in the program-id remap. -/
def group_m : Nat := 8

/-- The grouped program-id values computed by `EmitMatMul`
(ir_emitter_triton.cc:1976-1998). -/
structure GroupedProgramIds where
  group_id : Nat
  first_pid_m : Nat
  group_size : Nat
  pid_m : Nat
  pid_n : Nat
  deriving DecidableEq, Repr

/-- The grouped program-id remap of `EmitMatMul`
(ir_emitter_triton.cc:1976-1998).  All quantities are non-negative for
valid program ids (`pid_nc < grid_m * grid_n`), so the emitted signed
`DivSI`/`RemSI`/`SubI` operations coincide with `Nat` arithmetic. -/
def groupedProgramIds (grid_m grid_n pid_nc : Nat) : GroupedProgramIds :=
  let width := group_m * grid_n
  let group_id := pid_nc / width
  let first_pid_m := group_id * group_m
  let sub0 := grid_m - first_pid_m
  let group_size := if sub0 < group_m then sub0 else group_m
  let pid_m := first_pid_m + pid_nc % group_size
  let pid_n := (pid_nc % width) / group_size
  { group_id := group_id, first_pid_m := first_pid_m,
    group_size := group_size, pid_m := pid_m, pid_n := pid_n }

/-- The select chain built by the loop of `EmitMultiSelect`
(ir_emitter_triton.cc:1263-1267): starting from `choices[0]`, each step
`i` replaces the running result by `choices[i+1]` unless
`index < limits[i]`.  The pairs are `(limits[i], choices[i+1])`. -/
def multiSelectFold (index : Int) : Int → List (Int × Int) → Int
  | r, [] => r
  | r, (l, c) :: rest =>
    multiSelectFold index (if index < l then r else c) rest

/-- `EmitMultiSelect` (ir_emitter_triton.cc:1259-1269).  The
`TF_RET_CHECK(choices.size() - 1 == limits.size())` is modelled as
`choices.length = limits.length + 1` (for the empty `choices` the C++
unsigned `size() - 1` wraps and the check also fails). -/
def EmitMultiSelect (index : Int) (limits choices : List Int) :
    Option Int :=
  if choices.length = limits.length + 1 then
    match choices with
    | c0 :: cs => some (multiSelectFold index c0 (limits.zip cs))
    | [] => none
  else none

/-- Modelled from the spec's words (the cascading if-else documented at
ir_emitter_triton.cc:1250-1258): return `choices[j]` for the smallest
`j` such that `index < limits[j]`, and `choices.back()` when no limit
exceeds the index. -/
def cascadeSelectSpec (index : Int) : List Int → List Int → Int
  | l :: ls, c :: cs => if index < l then c else cascadeSelectSpec index ls cs
  | [], c :: _ => c
  | _, [] => 0

/-- One `IterationSpecFragment` of the per-operand iteration spec:
`{stride, count, slice_start, sliced_count}`.  The counts are
non-negative `int64_t` in the source. -/
structure IterationSpecFragment where
  stride : Int
  count : Nat
  slice_start : Int
  sliced_count : Nat
  deriving DecidableEq, Repr

/-- The per-operand concatenation-boundary loop body of
`EmitTensorPointer` (ir_emitter_triton.cc:1423-1433): for each visited
operand fragment, fail with `UncompilableMatmul` if its `sliced_count`
is not divisible by the block size, else record the cumulative boundary
`-slice_start + sliced_count`. -/
def concatBoundariesLoop : List IterationSpecFragment → Nat →
    Except Status (List Int)
  | [], _ => Except.ok []
  | f :: fs, block_size =>
    if f.sliced_count % block_size ≠ 0 then
      Except.error UncompilableMatmul
    else
      match concatBoundariesLoop fs block_size with
      | Except.error e => Except.error e
      | Except.ok rest =>
          Except.ok ((-f.slice_start + (f.sliced_count : Int)) :: rest)

/-- The concatenation-boundary computation of `EmitTensorPointer`
(ir_emitter_triton.cc:1422-1433): the loop runs over
`i ∈ [0, operand_count - 1)`, i.e. over every concatenated operand
except the last one. -/
def EmitTensorPointerConcatCheck
    (operandFragments : List IterationSpecFragment) (block_size : Nat) :
    Except Status (List Int) :=
  concatBoundariesLoop operandFragments.dropLast block_size

/-- The data `EmitTensorPointer`'s `add_dim` lambda
(ir_emitter_triton.cc:1444-1509) reads for one tiled dimension:
whether the operand has an iteration spec on the dimension
(`IterSpec != nullptr`), the spec's leading `count`, whether the
output-split adjustment `count /= *lhs_noncontracting_split` applies
(ir_emitter_triton.cc:1492-1499), the dimension's block size and split
value, and whether it is the concatenated dimension. -/
structure TensorPointerDim where
  hasSpec : Bool
  count : Nat
  splitDivisor : Option Nat
  blockSize : Nat
  splitValue : Nat
  isConcatDim : Bool
  deriving DecidableEq, Repr

/-- The value of the `count` local after the output-split adjustment
(ir_emitter_triton.cc:1491-1499). -/
def effectiveCount (d : TensorPointerDim) : Nat :=
  match d.splitDivisor with
  | some s => d.count / s
  | none => d.count

/-- One step of the `add_dim` loop, tracking the length of the
`bounds` vector and the accumulated `boundary_checks`
(ir_emitter_triton.cc:1444-1509): a dimension without a spec is
skipped; the concatenated dimension pushes a (multiselected) bound but
never a boundary check; any other dimension pushes its bound and
registers the axis `bounds.size() - 1` iff the effective count is not
divisible by `block_size * split_value`. -/
def addDimStep (st : Nat × List Nat) (d : TensorPointerDim) :
    Nat × List Nat :=
  if d.hasSpec then
    if d.isConcatDim then (st.1 + 1, st.2)
    else if effectiveCount d % (d.blockSize * d.splitValue) ≠ 0 then
      (st.1 + 1, st.2 ++ [st.1 + 1 - 1])
    else (st.1 + 1, st.2)
  else st

/-- The `add_dim` loop over a side's tiled dimensions
(ir_emitter_triton.cc:1511-1513), returning the final `bounds` length
and the registered `boundary_checks`. -/
def processTensorPointerDims (dims : List TensorPointerDim) :
    Nat × List Nat :=
  dims.foldl addDimStep (0, [])

/-- Modelled from the spec's words: the boundary-check list contains
exactly one entry for each non-concatenated dimension (with a spec)
whose extent is not evenly divisible by `block_size * split_value`,
namely that dimension's axis position, and nothing else.  `axis` is the
number of dimensions with specs already processed. -/
def boundaryAxesSpec : List TensorPointerDim → Nat → List Nat
  | [], _ => []
  | d :: rest, axis =>
    if d.hasSpec then
      if d.isConcatDim then boundaryAxesSpec rest (axis + 1)
      else if effectiveCount d % (d.blockSize * d.splitValue) = 0 then
        boundaryAxesSpec rest (axis + 1)
      else axis :: boundaryAxesSpec rest (axis + 1)
    else boundaryAxesSpec rest axis

/-- Padding modes of `mt::LoadOp` (only `PAD_ZERO` is used). -/
inductive PaddingOption where
  | padZero
  deriving DecidableEq, Repr

/-- The observable shape of the load emitted by `EmitParameterLoad`. -/
structure EmittedLoad where
  usedBoundaryChecks : List Nat
  padding : Option PaddingOption
  splattedScalar : Bool
  deriving DecidableEq, Repr

/-- `EmitParameterLoad` (ir_emitter_triton.cc:502-519): for a tensor
pointer, the boundary-check list is passed through and zero-fill
padding is attached exactly when that list is non-empty; a non-tensor
pointer is loaded as a scalar and splatted. -/
def EmitParameterLoad (isTensorPointer : Bool)
    (boundary_checks : List Nat) : EmittedLoad :=
  if isTensorPointer then
    { usedBoundaryChecks := boundary_checks,
      padding :=
        if boundary_checks.isEmpty then none else some PaddingOption.padZero,
      splattedScalar := false }
  else
    { usedBoundaryChecks := [], padding := none, splattedScalar := true }

/-- The data `EmitReduce` (ir_emitter_triton.cc:599-701) reads from
the reduce instruction: operand count, reduce dimensions, input
operand rank, the true row length (operand 0's minormost extent), the
shape of the neutral-element operand (`operand(1)`: either a constant,
or a convert of a BF16 constant to F32), and the neutral value the
emitted constant evaluates to (in the input element type, after the
cast in the convert case). -/
structure ReduceEmission (α : Type) where
  operandCount : Nat
  reduceDimensions : List Nat
  operandRank : Nat
  rowLen : Nat
  initOpcode : HloOpcode
  initInnerOpcode : HloOpcode
  initInnerTypeIsBF16 : Bool
  initDestTypeIsF32 : Bool
  neutral : α

/-- The masking select of `EmitReduce` (ir_emitter_triton.cc:642-647):
lane `i` keeps its input value when `i < row_len` and becomes the
neutral element otherwise (`Range(block_row) < splat(row_len)`
followed by a select against `splat(neutral)`). -/
def maskToNeutral {α : Type} (input : List α) (rowLen : Nat)
    (neutral : α) : List α :=
  input.mapIdx (fun i v => if i < rowLen then v else neutral)

/-- The reduction over one tile row: the `mt::ReduceOp` combines the
row's elements with the reducer region (the combination order is not
fixed by this file; it is modelled as a left fold).  An empty row has
no meaning for `ReduceOp`. -/
def reduceRow {F : Type} (reducer : F → F → F) : List F → Option F
  | [] => none
  | x :: xs => some (xs.foldl reducer x)

/-- `EmitReduce` (ir_emitter_triton.cc:599-701) on one tile row.
`input` is the tile row (its length is the power-of-two-padded
`block_row`); `castF32` is the cast of the input element type to f32
(ir_emitter_triton.cc:651), `reducer` the emitted reduction region
computing in f32, and `castOut` the cast of the f32 result to the
reduce's output element type (ir_emitter_triton.cc:700).  The
`TF_RET_CHECK` guards are modelled as `none`. -/
def EmitReduce {α F β : Type} (r : ReduceEmission α) (castF32 : α → F)
    (castOut : F → β) (reducer : F → F → F) (input : List α) :
    Option β :=
  if r.operandCount = 2 ∧ r.reduceDimensions.length = 1 ∧
      r.reduceDimensions.getD 0 0 = r.operandRank - 1 ∧
      r.rowLen ≤ input.length then
    if (r.initOpcode = HloOpcode.convert ∧
          r.initInnerOpcode = HloOpcode.constant ∧
          r.initInnerTypeIsBF16 = true ∧ r.initDestTypeIsF32 = true) ∨
        r.initOpcode = HloOpcode.constant then
      let masked :=
        if input.length ≠ r.rowLen then
          maskToNeutral input r.rowLen r.neutral
        else input
      match reduceRow reducer (masked.map castF32) with
      | none => none
      | some v => some (castOut v)
    else none
  else none

/-- A symbolic IEEE-754 scalar: a finite value (represented exactly),
a signed infinity, or NaN.  Exact finite arithmetic stands in for the
rounded hardware arithmetic; the claim under study is about the
propagation of non-finite values, which this model captures. -/
inductive FVal where
  | finite (q : ℚ)
  | posInf
  | negInf
  | nan
  deriving DecidableEq, Repr

/-- NaN test. -/
def FVal.isNan : FVal → Bool
  | FVal.nan => true
  | _ => false

/-- IEEE multiplication on symbolic scalars: NaN propagates,
`±∞ × 0 = NaN`, `±∞ × (finite ≠ 0)` and `±∞ × ±∞` follow the sign
rule, finite times finite is finite. -/
def fmul : FVal → FVal → FVal
  | FVal.nan, _ => FVal.nan
  | _, FVal.nan => FVal.nan
  | FVal.posInf, FVal.posInf => FVal.posInf
  | FVal.posInf, FVal.negInf => FVal.negInf
  | FVal.negInf, FVal.posInf => FVal.negInf
  | FVal.negInf, FVal.negInf => FVal.posInf
  | FVal.posInf, FVal.finite q =>
    if q = 0 then FVal.nan else if 0 < q then FVal.posInf else FVal.negInf
  | FVal.finite q, FVal.posInf =>
    if q = 0 then FVal.nan else if 0 < q then FVal.posInf else FVal.negInf
  | FVal.negInf, FVal.finite q =>
    if q = 0 then FVal.nan else if 0 < q then FVal.negInf else FVal.posInf
  | FVal.finite q, FVal.negInf =>
    if q = 0 then FVal.nan else if 0 < q then FVal.negInf else FVal.posInf
  | FVal.finite a, FVal.finite b => FVal.finite (a * b)

/-- IEEE addition on symbolic scalars: NaN propagates,
`+∞ + -∞ = NaN`, an infinity absorbs finite values. -/
def fadd : FVal → FVal → FVal
  | FVal.nan, _ => FVal.nan
  | _, FVal.nan => FVal.nan
  | FVal.posInf, FVal.negInf => FVal.nan
  | FVal.negInf, FVal.posInf => FVal.nan
  | FVal.posInf, _ => FVal.posInf
  | _, FVal.posInf => FVal.posInf
  | FVal.negInf, _ => FVal.negInf
  | _, FVal.negInf => FVal.negInf
  | FVal.finite a, FVal.finite b => FVal.finite (a + b)

/-- `mm::AbsFOp`. -/
def fabs : FVal → FVal
  | FVal.finite q => FVal.finite |q|
  | FVal.posInf => FVal.posInf
  | FVal.negInf => FVal.posInf
  | FVal.nan => FVal.nan

/-- `ma::CmpFOp` with predicate `OGT` (ordered greater-than): false
whenever an operand is NaN. -/
def fcmpOGT : FVal → FVal → Bool
  | FVal.nan, _ => false
  | _, FVal.nan => false
  | FVal.posInf, FVal.posInf => false
  | FVal.posInf, _ => true
  | _, FVal.posInf => false
  | FVal.negInf, FVal.negInf => false
  | FVal.negInf, _ => false
  | _, FVal.negInf => true
  | FVal.finite a, FVal.finite b => decide (b < a)

/-- `CheckFiniteF32` (ir_emitter_triton.cc:1726-1732):
`positive_inf OGT abs(input)` — true exactly for finite inputs. -/
def CheckFiniteF32 (x : FVal) : Bool :=
  fcmpOGT FVal.posInf (fabs x)

/-- The per-element scalar semantics of one `mt::DotOp` accumulation
step `a * b + acc` (the contracted extent is one element; additional
elements only add more such products). -/
def dotStep (a b acc : FVal) : FVal :=
  fadd (fmul a b) acc

/-- The accumulated correction terms of `Emit3xBfloat16MatMul`
(ir_emitter_triton.cc:1804-1806): `lhs_low·rhs_high` then
`lhs_high·rhs_low` into a fresh zero accumulator. -/
def correction3x (lhs_high lhs_low rhs_high rhs_low : FVal) : FVal :=
  dotStep lhs_high rhs_low
    (dotStep lhs_low rhs_high (FVal.finite 0))

/-- The accumulated correction terms of `Emit6xBfloat16MatMul`
(ir_emitter_triton.cc:1762-1767): `middle·middle`, `low·high`,
`high·low`, `middle·high`, `high·middle` into a fresh zero
accumulator. -/
def correction6x (lhs_high lhs_middle lhs_low rhs_high rhs_middle
    rhs_low : FVal) : FVal :=
  dotStep lhs_high rhs_middle
    (dotStep lhs_middle rhs_high
      (dotStep lhs_high rhs_low
        (dotStep lhs_low rhs_high
          (dotStep lhs_middle rhs_middle (FVal.finite 0)))))

/-- `Emit3xBfloat16MatMul` (ir_emitter_triton.cc:1784-1812) at the
per-element level, taking the already-split operand halves as inputs
(the bit-level split `TruncateToBF16TowardsZero`/`SoftMiddleEight` is
upstream of the guarded accumulation this models): the two correction
dots into a zero accumulator, the non-finite guard replacing a
non-finite result by zero, the final `high×high` dot, and the add of
the loop-carried accumulator. -/
def Emit3xBfloat16MatMul (lhs_high lhs_low rhs_high rhs_low acc :
    FVal) : FVal :=
  let local_acc := FVal.finite 0
  let result1 := dotStep lhs_low rhs_high local_acc
  let result2 := dotStep lhs_high rhs_low result1
  let result3 := if CheckFiniteF32 result2 then result2 else FVal.finite 0
  let result4 := dotStep lhs_high rhs_high result3
  fadd acc result4

/-- `Emit6xBfloat16MatMul` (ir_emitter_triton.cc:1736-1780) at the
per-element level, with the operand thirds as inputs: five correction
dots into a zero accumulator, the non-finite guard, the final
`high×high` dot, and the add of the loop-carried accumulator. -/
def Emit6xBfloat16MatMul (lhs_high lhs_middle lhs_low rhs_high
    rhs_middle rhs_low acc : FVal) : FVal :=
  let local_acc := FVal.finite 0
  let r1 := dotStep lhs_middle rhs_middle local_acc
  let r2 := dotStep lhs_low rhs_high r1
  let r3 := dotStep lhs_high rhs_low r2
  let r4 := dotStep lhs_middle rhs_high r3
  let r5 := dotStep lhs_high rhs_middle r4
  let r6 := if CheckFiniteF32 r5 then r5 else FVal.finite 0
  let r7 := dotStep lhs_high rhs_high r6
  fadd acc r7

end Triton

namespace Triton

/-- The `(m + b - 1) / b` pattern used for the grid extents is the
ceiling of `m / b`: it is the unique `g` with `m ≤ g * b < m + b`. -/
theorem ceil_div_characterization (m b : Nat) (hb : 0 < b) :
    m ≤ ((m + b - 1) / b) * b ∧ ((m + b - 1) / b) * b < m + b := by
  have hdm := Nat.div_add_mod (m + b - 1) b
  have hlt := Nat.mod_lt (m + b - 1) hb
  have hcomm : ((m + b - 1) / b) * b = b * ((m + b - 1) / b) :=
    Nat.mul_comm _ _
  omega

/-- C1: the launch planner computes `grid_m = ceil(m/block_m)` and
`grid_n = ceil(n/block_n)` (stated via the ceiling characterization
`m ≤ grid_m * block_m < m + block_m`); `batch_size` is the split
multiplier if present, else the output batch extent, else 1; when
`batch_size ≥ 65536` the batch dimension is on the unlimited axis `X`
and `grid_m * grid_n` on the limited axis `Y`, otherwise batch is on
`Y` and the combined grid on `X`, with `split_k` always on the third
axis; and construction fails exactly when
`batch_size * grid_m * grid_n ≥ 65536²`. -/
theorem claim_C1_launch_planner (config : TritonGemmConfig)
    (dotShapeDims : List Nat) (dims : MatMulDimsFields)
    (hbm : 0 < config.block_m) (hbn : 0 < config.block_n) :
    (mkMatMulLaunchConfig config dotShapeDims dims = none ↔
      kBlockCountYZLimit * kBlockCountYZLimit ≤
        launchBatchSize dotShapeDims dims *
          ((dims.m + config.block_m - 1) / config.block_m) *
          ((dims.n + config.block_n - 1) / config.block_n)) ∧
    (∀ s, dims.lhs_noncontracting_split = some s →
        launchBatchSize dotShapeDims dims = s) ∧
    (∀ i, dims.lhs_noncontracting_split = none →
        dims.out_batch_dim_idx = some i →
        launchBatchSize dotShapeDims dims = dotShapeDims.getD i 0) ∧
    (dims.lhs_noncontracting_split = none →
        dims.out_batch_dim_idx = none →
        launchBatchSize dotShapeDims dims = 1) ∧
    (∀ cfg, mkMatMulLaunchConfig config dotShapeDims dims = some cfg →
      (dims.m ≤ cfg.grid_m * config.block_m ∧
        cfg.grid_m * config.block_m < dims.m + config.block_m) ∧
      (dims.n ≤ cfg.grid_n * config.block_n ∧
        cfg.grid_n * config.block_n < dims.n + config.block_n) ∧
      (kBlockCountYZLimit ≤ launchBatchSize dotShapeDims dims →
        cfg.batch_program_id_dim = ProgramIDDim.X ∧
        cfg.noncontracting_program_id_dim = ProgramIDDim.Y ∧
        cfg.launch_dims.blockDim =
          (launchBatchSize dotShapeDims dims, cfg.grid_m * cfg.grid_n,
            config.split_k)) ∧
      (launchBatchSize dotShapeDims dims < kBlockCountYZLimit →
        cfg.batch_program_id_dim = ProgramIDDim.Y ∧
        cfg.noncontracting_program_id_dim = ProgramIDDim.X ∧
        cfg.launch_dims.blockDim =
          (cfg.grid_m * cfg.grid_n, launchBatchSize dotShapeDims dims,
            config.split_k))) := by
  refine ⟨?_, ?_, ?_, ?_, ?_⟩
  · unfold mkMatMulLaunchConfig
    by_cases h : launchBatchSize dotShapeDims dims *
        ((dims.m + config.block_m - 1) / config.block_m) *
        ((dims.n + config.block_n - 1) / config.block_n) <
        kBlockCountYZLimit * kBlockCountYZLimit
    · simp only [if_pos h]
      constructor
      · intro hn; split at hn <;> simp at hn
      · exact fun hge => absurd hge (by omega)
    · simp only [if_neg h]
      exact ⟨fun _ => by omega, fun _ => trivial⟩
  · intro s hs
    unfold launchBatchSize
    rw [hs]
    rfl
  · intro i hs hi
    unfold launchBatchSize
    rw [hs, hi]
    rfl
  · intro hs hi
    unfold launchBatchSize
    rw [hs, hi]
    rfl
  · intro cfg hcfg
    unfold mkMatMulLaunchConfig at hcfg
    by_cases h : launchBatchSize dotShapeDims dims *
        ((dims.m + config.block_m - 1) / config.block_m) *
        ((dims.n + config.block_n - 1) / config.block_n) <
        kBlockCountYZLimit * kBlockCountYZLimit
    · simp only [if_pos h] at hcfg
      by_cases hlarge :
          launchBatchSize dotShapeDims dims ≥ kBlockCountYZLimit
      · simp only [if_pos hlarge, Option.some.injEq] at hcfg
        subst hcfg
        refine ⟨ceil_div_characterization dims.m config.block_m hbm,
          ceil_div_characterization dims.n config.block_n hbn,
          fun _ => ⟨rfl, rfl, rfl⟩, fun hsmall => absurd hlarge (by omega)⟩
      · simp only [if_neg hlarge, Option.some.injEq] at hcfg
        subst hcfg
        refine ⟨ceil_div_characterization dims.m config.block_m hbm,
          ceil_div_characterization dims.n config.block_n hbn,
          fun hge => absurd hge (by omega), fun _ => ⟨rfl, rfl, rfl⟩⟩
    · simp only [if_neg h] at hcfg
      exact absurd hcfg (by simp)

/-- Witness for C1: a concrete non-batched 64×64×64 matmul with 32×32
blocks launches a 2×2 grid with batch on `Y` and the grid on `X`. -/
theorem claim_C1_launch_planner_witness :
    (64 : Nat) ≤ 2 * 32 ∧ (2 * 32 : Nat) < 64 + 32 :=
  ((claim_C1_launch_planner
      { block_m := 32, block_n := 32, block_k := 32, split_k := 1,
        num_warps := 4 }
      [64, 64]
      { m := 64, n := 64, k := 64, lhs_noncontracting_split := none,
        out_batch_dim_idx := none }
      (by decide) (by decide)).2.2.2.2
    { grid_m := 2, grid_n := 2,
      launch_dims := { blockDim := (4, 1, 1), threadDim := (128, 1, 1) },
      batch_program_id_dim := ProgramIDDim.Y,
      noncontracting_program_id_dim := ProgramIDDim.X }
    rfl).1

/-- C2: `MatMulDims::Create` resolves
`k = rhs_contracting_extent * split_k`, except when `split_k > 1` and
the RHS operand's producer is a pad, in which case `k` is read from the
pre-pad shape at the dimension just before the contracting index (and
the RHS operand is required to be a bitcast). -/
theorem claim_C2_contracting_size (split_k : Nat) (rhs : HloInst)
    (rhsContractingIdx : Nat) :
    (¬ (split_k > 1 ∧ (rhs.operand 0).opcode = HloOpcode.pad) →
      resolveContractingSize split_k rhs rhsContractingIdx =
        some (rhs.shapeDims.getD rhsContractingIdx 0 * split_k)) ∧
    (split_k > 1 → (rhs.operand 0).opcode = HloOpcode.pad →
      rhs.opcode = HloOpcode.bitcast →
      resolveContractingSize split_k rhs rhsContractingIdx =
        some (((rhs.operand 0).operand 0).shapeDims.getD
          (rhsContractingIdx - 1) 0)) ∧
    (split_k > 1 → (rhs.operand 0).opcode = HloOpcode.pad →
      rhs.opcode ≠ HloOpcode.bitcast →
      resolveContractingSize split_k rhs rhsContractingIdx = none) := by
  refine ⟨?_, ?_, ?_⟩
  · intro hn
    unfold resolveContractingSize
    rw [if_neg hn]
  · intro hs hp hb
    unfold resolveContractingSize
    rw [if_pos ⟨hs, hp⟩, if_pos hb]
  · intro hs hp hb
    unfold resolveContractingSize
    rw [if_pos ⟨hs, hp⟩, if_neg hb]

/-- Witness for C2: with `split_k = 2` and an RHS chain
`bitcast(pad(parameter))` where the parameter has shape `[127, 64]` and
contracting index 1, `k` is read from the pre-pad shape: `k = 127`;
and with `split_k = 1` on a plain parameter of shape `[128, 64]` with
contracting index 0, `k = 128`. -/
theorem claim_C2_contracting_size_witness :
    resolveContractingSize 2
        (HloInst.mk HloOpcode.bitcast [2, 64, 64]
          [HloInst.mk HloOpcode.pad [128, 64]
            [HloInst.mk HloOpcode.parameter [127, 64] []]]) 1 =
      some 127 ∧
    resolveContractingSize 1
        (HloInst.mk HloOpcode.parameter [128, 64] []) 0 = some 128 := by
  constructor
  · exact (claim_C2_contracting_size 2
      (HloInst.mk HloOpcode.bitcast [2, 64, 64]
        [HloInst.mk HloOpcode.pad [128, 64]
          [HloInst.mk HloOpcode.parameter [127, 64] []]]) 1).2.1
      (by decide) rfl rfl
  · exact (claim_C2_contracting_size 1
      (HloInst.mk HloOpcode.parameter [128, 64] []) 0).1
      (by simp [HloInst.operand, HloInst.operandsOf, HloInst.opcode,
        default])

/-- C3: the grouped program-id remap uses `group_m = 8`: it computes
`group_id = pid_nc / (8*grid_n)`, `first_pid_m = 8*group_id`,
`group_size = min (grid_m - first_pid_m) 8`,
`pid_m = first_pid_m + pid_nc % group_size`,
`pid_n = (pid_nc % (8*grid_n)) / group_size`; every flat id in group
`g`'s contiguous range lands in group `g` with `pid_m` inside that
group's m-tile band; the final group has size `grid_m mod 8` (or 8
when exact); and for `grid_m = 10` group 0 covers `pid_m ∈ [0,8)` and
the final group covers `pid_m ∈ [8,10)` with `group_size = 2`. -/
theorem claim_C3_grouped_program_ids (grid_m grid_n pid_nc : Nat)
    (h : pid_nc < grid_m * grid_n) :
    ((groupedProgramIds grid_m grid_n pid_nc).group_id =
        pid_nc / (8 * grid_n) ∧
      (groupedProgramIds grid_m grid_n pid_nc).first_pid_m =
        8 * (groupedProgramIds grid_m grid_n pid_nc).group_id ∧
      (groupedProgramIds grid_m grid_n pid_nc).group_size =
        min (grid_m -
          (groupedProgramIds grid_m grid_n pid_nc).first_pid_m) 8 ∧
      (groupedProgramIds grid_m grid_n pid_nc).pid_m =
        (groupedProgramIds grid_m grid_n pid_nc).first_pid_m +
          pid_nc % (groupedProgramIds grid_m grid_n pid_nc).group_size ∧
      (groupedProgramIds grid_m grid_n pid_nc).pid_n =
        (pid_nc % (8 * grid_n)) /
          (groupedProgramIds grid_m grid_n pid_nc).group_size) ∧
    (∀ g, g * (8 * grid_n) ≤ pid_nc → pid_nc < (g + 1) * (8 * grid_n) →
      (groupedProgramIds grid_m grid_n pid_nc).group_id = g) ∧
    (0 < (groupedProgramIds grid_m grid_n pid_nc).group_size ∧
      (groupedProgramIds grid_m grid_n pid_nc).first_pid_m ≤
        (groupedProgramIds grid_m grid_n pid_nc).pid_m ∧
      (groupedProgramIds grid_m grid_n pid_nc).pid_m <
        (groupedProgramIds grid_m grid_n pid_nc).first_pid_m +
          (groupedProgramIds grid_m grid_n pid_nc).group_size) ∧
    ((groupedProgramIds grid_m grid_n pid_nc).group_id =
        (grid_m - 1) / 8 →
      (groupedProgramIds grid_m grid_n pid_nc).group_size =
        if grid_m % 8 = 0 then 8 else grid_m % 8) ∧
    ((∀ p, p < 16 → (groupedProgramIds 10 2 p).pid_m < 8) ∧
      (∀ mv, mv < 8 →
        ∃ p, p < 16 ∧ (groupedProgramIds 10 2 p).pid_m = mv) ∧
      (∀ p, p < 20 → 16 ≤ p →
        (groupedProgramIds 10 2 p).group_size = 2 ∧
        8 ≤ (groupedProgramIds 10 2 p).pid_m ∧
        (groupedProgramIds 10 2 p).pid_m < 10) ∧
      (∀ mv, mv < 10 → 8 ≤ mv →
        ∃ p, p < 20 ∧ 16 ≤ p ∧ (groupedProgramIds 10 2 p).pid_m = mv)) := by
  have hgn : 0 < grid_n := by
    rcases Nat.eq_zero_or_pos grid_n with h0 | h0
    · subst h0; simp at h
    · exact h0
  have e1 : (groupedProgramIds grid_m grid_n pid_nc).group_id =
      pid_nc / (8 * grid_n) := rfl
  have e2 : (groupedProgramIds grid_m grid_n pid_nc).first_pid_m =
      (pid_nc / (8 * grid_n)) * 8 := rfl
  have e3 : (groupedProgramIds grid_m grid_n pid_nc).group_size =
      if grid_m - (pid_nc / (8 * grid_n)) * 8 < 8 then
        grid_m - (pid_nc / (8 * grid_n)) * 8
      else 8 := rfl
  have e4 : (groupedProgramIds grid_m grid_n pid_nc).pid_m =
      (pid_nc / (8 * grid_n)) * 8 +
        pid_nc % (groupedProgramIds grid_m grid_n pid_nc).group_size := rfl
  have e5 : (groupedProgramIds grid_m grid_n pid_nc).pid_n =
      (pid_nc % (8 * grid_n)) /
        (groupedProgramIds grid_m grid_n pid_nc).group_size := rfl
  have hfirst_lt : (pid_nc / (8 * grid_n)) * 8 < grid_m := by
    have h1 : (pid_nc / (8 * grid_n)) * (8 * grid_n) ≤ pid_nc :=
      Nat.div_mul_le_self pid_nc (8 * grid_n)
    have h2 : ((pid_nc / (8 * grid_n)) * 8) * grid_n ≤ pid_nc := by
      rw [Nat.mul_assoc]; exact h1
    exact Nat.lt_of_mul_lt_mul_right (Nat.lt_of_le_of_lt h2 h)
  have hgs_pos : 0 < (groupedProgramIds grid_m grid_n pid_nc).group_size := by
    rw [e3]; split <;> omega
  refine ⟨⟨e1, by rw [e2, e1, Nat.mul_comm], ?_, by rw [e4, e2], e5⟩,
    ?_, ⟨hgs_pos, ?_, ?_⟩, ?_, ?_, ?_, ?_, ?_⟩
  · rw [e3, e2, Nat.min_def]; split <;> split <;> omega
  · intro g hlo hhi
    rw [e1]
    exact Nat.div_eq_of_lt_le hlo hhi
  · rw [e4]; exact Nat.le_add_right _ _
  · rw [e4, e2]
    exact Nat.add_lt_add_left (Nat.mod_lt pid_nc hgs_pos) _
  · intro hid
    rw [e1] at hid
    rw [e3, hid]
    split <;> split <;> omega
  · decide
  · decide
  · decide
  · decide

/-- Witness for C3: at `grid_m = 10`, `grid_n = 2`, `pid_nc = 17` the
remap yields `group_id = 1`, `first_pid_m = 8`, `group_size = 2`,
`pid_m = 9`. -/
theorem claim_C3_grouped_program_ids_witness :
    (groupedProgramIds 10 2 17).group_id = 17 / (8 * 2) ∧
    (groupedProgramIds 10 2 17).first_pid_m =
      8 * (groupedProgramIds 10 2 17).group_id ∧
    (groupedProgramIds 10 2 17).group_size =
      min (10 - (groupedProgramIds 10 2 17).first_pid_m) 8 ∧
    (groupedProgramIds 10 2 17).pid_m =
      (groupedProgramIds 10 2 17).first_pid_m +
        17 % (groupedProgramIds 10 2 17).group_size ∧
    (groupedProgramIds 10 2 17).pid_n =
      (17 % (8 * 2)) / (groupedProgramIds 10 2 17).group_size :=
  (claim_C3_grouped_program_ids 10 2 17 (by decide)).1

/-- If `index` is below every limit in the remaining pairs, the select
chain keeps the running result. -/
theorem multiSelectFold_const (index : Int) :
    ∀ (pairs : List (Int × Int)) (r : Int),
      (∀ p ∈ pairs, index < p.1) → multiSelectFold index r pairs = r := by
  intro pairs
  induction pairs with
  | nil => intro r _; rfl
  | cons p rest ih =>
    intro r hall
    rw [multiSelectFold, if_pos (hall p (List.mem_cons_self p rest))]
    exact ih r fun q hq => hall q (List.mem_cons_of_mem p hq)

/-- For non-decreasing limits the select chain computes the cascading
if-else selection. -/
theorem multiSelectFold_eq_cascade (index : Int) :
    ∀ (limits : List Int) (c0 : Int) (cs : List Int),
      cs.length = limits.length → limits.Pairwise (· ≤ ·) →
      multiSelectFold index c0 (limits.zip cs) =
        cascadeSelectSpec index limits (c0 :: cs) := by
  intro limits
  induction limits with
  | nil =>
    intro c0 cs hlen _
    have : cs = [] := List.eq_nil_of_length_eq_zero hlen
    subst this
    rfl
  | cons l ls ih =>
    intro c0 cs hlen hsorted
    cases cs with
    | nil => simp at hlen
    | cons c1 cs' =>
      have hlen' : cs'.length = ls.length := by simpa using hlen
      have hle : ∀ x ∈ ls, l ≤ x := (List.pairwise_cons.mp hsorted).1
      rw [List.zip_cons_cons, multiSelectFold]
      by_cases hidx : index < l
      · rw [if_pos hidx,
          multiSelectFold_const index (ls.zip cs') c0
            (fun p hp =>
              lt_of_lt_of_le hidx (hle p.1 (List.of_mem_zip hp).1))]
        show _ = cascadeSelectSpec index (l :: ls) (c0 :: c1 :: cs')
        rw [cascadeSelectSpec, if_pos hidx]
      · rw [if_neg hidx, ih c1 cs' hlen' (List.Pairwise.of_cons hsorted)]
        show _ = cascadeSelectSpec index (l :: ls) (c0 :: c1 :: cs')
        rw [cascadeSelectSpec, if_neg hidx]

/-- The boundary loop fails iff some visited fragment's sliced count is
not divisible by the block size. -/
theorem concatBoundariesLoop_error_iff
    (fs : List IterationSpecFragment) (bs : Nat) :
    (∃ e, concatBoundariesLoop fs bs = Except.error e) ↔
      ∃ f ∈ fs, f.sliced_count % bs ≠ 0 := by
  induction fs with
  | nil => simp [concatBoundariesLoop]
  | cons f rest ih =>
    rw [concatBoundariesLoop]
    by_cases hd : f.sliced_count % bs ≠ 0
    · rw [if_pos hd]
      constructor
      · intro _; exact ⟨f, List.mem_cons_self f rest, hd⟩
      · intro _; exact ⟨UncompilableMatmul, rfl⟩
    · rw [if_neg hd]
      rcases hrec : concatBoundariesLoop rest bs with e | vs
      · constructor
        · intro _
          rcases ih.mp ⟨e, hrec⟩ with ⟨g, hg, hgd⟩
          exact ⟨g, List.mem_cons_of_mem f hg, hgd⟩
        · intro _; exact ⟨e, rfl⟩
      · constructor
        · rintro ⟨e, he⟩; cases he
        · rintro ⟨g, hg, hgd⟩
          rcases List.mem_cons.mp hg with hgf | hgr
          · subst hgf; exact absurd hgd hd
          · exact absurd (ih.mpr ⟨g, hgr, hgd⟩) (by simp [hrec])

/-- Any failure of the boundary loop is the `UncompilableMatmul`
status. -/
theorem concatBoundariesLoop_error_eq
    (fs : List IterationSpecFragment) (bs : Nat) (e : Status) :
    concatBoundariesLoop fs bs = Except.error e →
      e = UncompilableMatmul := by
  induction fs with
  | nil => intro h; cases h
  | cons f rest ih =>
    rw [concatBoundariesLoop]
    by_cases hd : f.sliced_count % bs ≠ 0
    · rw [if_pos hd]
      intro h
      cases h
      rfl
    · rw [if_neg hd]
      rcases hrec : concatBoundariesLoop rest bs with e' | vs
      · intro h
        cases h
        exact ih hrec
      · intro h; cases h

/-- Unrolling the `add_dim` fold: the bounds length grows by the
number of dimensions with specs, and the registered boundary checks are
exactly the axes described by `boundaryAxesSpec`. -/
theorem processDims_foldl (dims : List TensorPointerDim) :
    ∀ (n : Nat) (cs : List Nat),
      dims.foldl addDimStep (n, cs) =
        (n + dims.countP (fun d => d.hasSpec),
          cs ++ boundaryAxesSpec dims n) := by
  induction dims with
  | nil => intro n cs; simp [boundaryAxesSpec]
  | cons d rest ih =>
    intro n cs
    rw [List.foldl_cons]
    cases hd : d.hasSpec with
    | false =>
      have hstep : addDimStep (n, cs) d = (n, cs) := by
        simp [addDimStep, hd]
      rw [hstep, ih, List.countP_cons]
      simp [hd, boundaryAxesSpec]
    | true =>
      cases hc : d.isConcatDim with
      | true =>
        have hstep : addDimStep (n, cs) d = (n + 1, cs) := by
          simp [addDimStep, hd, hc]
        rw [hstep, ih, List.countP_cons]
        simp [hd, hc, boundaryAxesSpec]
        omega
      | false =>
        by_cases hdvd : effectiveCount d % (d.blockSize * d.splitValue) = 0
        · have hstep : addDimStep (n, cs) d = (n + 1, cs) := by
            simp [addDimStep, hd, hc, hdvd]
          rw [hstep, ih, List.countP_cons]
          simp [hd, hc, hdvd, boundaryAxesSpec]
          omega
        · have hstep : addDimStep (n, cs) d = (n + 1, cs ++ [n]) := by
            simp [addDimStep, hd, hc, hdvd]
          rw [hstep, ih, List.countP_cons]
          simp [hd, hc, hdvd, boundaryAxesSpec]
          omega

/-- Every registered axis is at least the starting axis number. -/
theorem boundaryAxesSpec_ge :
    ∀ (dims : List TensorPointerDim) (n a : Nat),
      a ∈ boundaryAxesSpec dims n → n ≤ a := by
  intro dims
  induction dims with
  | nil => intro n a ha; simp [boundaryAxesSpec] at ha
  | cons d rest ih =>
    intro n a ha
    rw [boundaryAxesSpec] at ha
    cases hd : d.hasSpec with
    | false =>
      rw [hd] at ha
      simp at ha
      exact ih n a ha
    | true =>
      rw [hd] at ha
      simp at ha
      cases hc : d.isConcatDim with
      | true =>
        rw [hc] at ha
        simp at ha
        exact Nat.le_of_succ_le (ih (n + 1) a ha)
      | false =>
        rw [hc] at ha
        simp at ha
        by_cases hdvd : effectiveCount d % (d.blockSize * d.splitValue) = 0
        · rw [if_pos hdvd] at ha
          exact Nat.le_of_succ_le (ih (n + 1) a ha)
        · rw [if_neg hdvd] at ha
          rcases List.mem_cons.mp ha with h1 | h1
          · omega
          · exact Nat.le_of_succ_le (ih (n + 1) a h1)

/-- The registered boundary-check axes are pairwise distinct. -/
theorem boundaryAxesSpec_nodup :
    ∀ (dims : List TensorPointerDim) (n : Nat),
      (boundaryAxesSpec dims n).Nodup := by
  intro dims
  induction dims with
  | nil => intro n; simp [boundaryAxesSpec]
  | cons d rest ih =>
    intro n
    rw [boundaryAxesSpec]
    cases hd : d.hasSpec with
    | false => simpa using ih n
    | true =>
      simp only [if_pos rfl]
      cases hc : d.isConcatDim with
      | true => simpa using ih (n + 1)
      | false =>
        simp only [Bool.false_eq_true, if_false]
        by_cases hdvd : effectiveCount d % (d.blockSize * d.splitValue) = 0
        · rw [if_pos hdvd]; exact ih (n + 1)
        · rw [if_neg hdvd]
          refine List.nodup_cons.mpr ⟨?_, ih (n + 1)⟩
          intro hmem
          have := boundaryAxesSpec_ge rest (n + 1) n hmem
          omega

/-- C4: for every non-concatenated tiled dimension handled by
`EmitTensorPointer`, a boundary check for that axis is registered iff
the dimension's (effective) extent is not evenly divisible by
`block_size * split_value` — the boundary-check list is exactly the
list of such axes, each exactly once — and `EmitParameterLoad` attaches
zero-fill padding to the load iff the boundary-check list is
non-empty. -/
theorem claim_C4_boundary_checks (dims : List TensorPointerDim)
    (d : TensorPointerDim) :
    (processTensorPointerDims dims =
      (dims.countP (fun x => x.hasSpec), boundaryAxesSpec dims 0)) ∧
    (processTensorPointerDims dims).2.Nodup ∧
    (d.hasSpec = true → d.isConcatDim = false →
      ((effectiveCount d % (d.blockSize * d.splitValue) ≠ 0 →
        (processTensorPointerDims (dims ++ [d])).2 =
          (processTensorPointerDims dims).2 ++
            [dims.countP (fun x => x.hasSpec)]) ∧
      (effectiveCount d % (d.blockSize * d.splitValue) = 0 →
        (processTensorPointerDims (dims ++ [d])).2 =
          (processTensorPointerDims dims).2))) ∧
    (∀ checks : List Nat,
      (EmitParameterLoad true checks).padding = some PaddingOption.padZero
        ↔ checks ≠ []) := by
  have hfold : processTensorPointerDims dims =
      (dims.countP (fun x => x.hasSpec), boundaryAxesSpec dims 0) := by
    unfold processTensorPointerDims
    rw [processDims_foldl dims 0 []]
    simp
  refine ⟨hfold, ?_, ?_, ?_⟩
  · rw [hfold]
    exact boundaryAxesSpec_nodup dims 0
  · intro hs hc
    have happend : processTensorPointerDims (dims ++ [d]) =
        addDimStep (processTensorPointerDims dims) d := by
      unfold processTensorPointerDims
      rw [List.foldl_append, List.foldl_cons, List.foldl_nil]
    constructor
    · intro hdvd
      rw [happend, hfold, addDimStep]
      simp [hs, hc, hdvd]
    · intro hdvd
      rw [happend, hfold, addDimStep]
      simp [hs, hc, hdvd]
  · intro checks
    cases checks <;> simp [EmitParameterLoad]

/-- Witness for C4: one spec-carrying dimension of extent 63 with block
size 32 and split value 1 registers exactly the boundary check for axis
0; appending a dimension of extent 64 with block size 32 and split
value 2 (divisible) registers nothing new; and the load over the
non-empty check list carries zero-fill padding. -/
theorem claim_C4_boundary_checks_witness :
    (processTensorPointerDims
        ([⟨true, 63, none, 32, 1, false⟩] ++
          [⟨true, 64, none, 32, 2, false⟩])).2 =
      (processTensorPointerDims [⟨true, 63, none, 32, 1, false⟩]).2 :=
  ((claim_C4_boundary_checks [⟨true, 63, none, 32, 1, false⟩]
      ⟨true, 64, none, 32, 2, false⟩).2.2.1 rfl rfl).2 (by decide)

/-- Lane values of the masking select: lane `i` keeps the input value
when `i < rowLen` and is the neutral element otherwise. -/
theorem maskToNeutral_getD {α : Type} (input : List α) (rowLen : Nat)
    (neutral d : α) (i : Nat) (h : i < input.length) :
    (maskToNeutral input rowLen neutral).getD i d =
      if i < rowLen then input.getD i d else neutral := by
  unfold maskToNeutral
  have h2 : i < (input.mapIdx
      (fun i v => if i < rowLen then v else neutral)).length := by
    simpa using h
  rw [List.getD_eq_getElem _ _ h2, List.getD_eq_getElem _ _ h]
  simp

/-- C7: for a supported reduce node (two operands, a single reduce
dimension equal to the minormost axis, neutral element a constant
directly or behind a BF16-to-F32 widening conversion, and a tile row at
least as wide as the true row), `EmitReduce` inserts no mask when the
padded tile width equals the row length, masks every lane at or beyond
the row length to the neutral element when it exceeds it, computes the
reduction on the (masked) input cast to f32, and casts the result back
to the reduce's output element type. -/
theorem claim_C7_reduce_masking {α F β : Type} (r : ReduceEmission α)
    (castF32 : α → F) (castOut : F → β) (reducer : F → F → F)
    (input : List α)
    (hop : r.operandCount = 2)
    (hdims : r.reduceDimensions = [r.operandRank - 1])
    (hrow : r.rowLen ≤ input.length)
    (hinit : (r.initOpcode = HloOpcode.convert ∧
        r.initInnerOpcode = HloOpcode.constant ∧
        r.initInnerTypeIsBF16 = true ∧ r.initDestTypeIsF32 = true) ∨
      r.initOpcode = HloOpcode.constant) :
    (input.length = r.rowLen →
      EmitReduce r castF32 castOut reducer input =
        (reduceRow reducer (input.map castF32)).map castOut) ∧
    (input.length ≠ r.rowLen →
      EmitReduce r castF32 castOut reducer input =
        (reduceRow reducer
          ((maskToNeutral input r.rowLen r.neutral).map castF32)).map
            castOut) ∧
    (∀ i, r.rowLen ≤ i → i < input.length →
      (maskToNeutral input r.rowLen r.neutral).getD i r.neutral =
        r.neutral) ∧
    (∀ i, i < r.rowLen →
      (maskToNeutral input r.rowLen r.neutral).getD i r.neutral =
        input.getD i r.neutral) := by
  have hguard : r.operandCount = 2 ∧ r.reduceDimensions.length = 1 ∧
      r.reduceDimensions.getD 0 0 = r.operandRank - 1 ∧
      r.rowLen ≤ input.length := by
    refine ⟨hop, ?_, ?_, hrow⟩ <;> rw [hdims] <;> rfl
  refine ⟨?_, ?_, ?_, ?_⟩
  · intro heq
    unfold EmitReduce
    rw [if_pos hguard, if_pos hinit]
    simp only [heq, ne_eq, not_true_eq_false, if_false, ite_false]
    rcases hred : reduceRow reducer (input.map castF32) with _ | v <;>
      simp [hred]
  · intro hne
    unfold EmitReduce
    rw [if_pos hguard, if_pos hinit]
    simp only [ne_eq, hne, not_false_eq_true, if_true, ite_true]
    rcases hred : reduceRow reducer
        ((maskToNeutral input r.rowLen r.neutral).map castF32) with _ | v <;>
      simp [hred]
  · intro i hge hlt
    rw [maskToNeutral_getD input r.rowLen r.neutral r.neutral i hlt,
      if_neg (by omega)]
  · intro i hlt
    rw [maskToNeutral_getD input r.rowLen r.neutral r.neutral i
        (Nat.lt_of_lt_of_le hlt hrow), if_pos hlt]

/-- Witness for C7: a 4-lane tile over a 3-element row with neutral 0
and addition as the reducer: the padded lane is masked to 0 and the
reduction computes `castOut (1 + 2 + 3) = 6` (identity casts). -/
theorem claim_C7_reduce_masking_witness :
    EmitReduce
        { operandCount := 2, reduceDimensions := [0], operandRank := 1,
          rowLen := 3, initOpcode := HloOpcode.constant,
          initInnerOpcode := HloOpcode.constant,
          initInnerTypeIsBF16 := false, initDestTypeIsF32 := false,
          neutral := (0 : Int) }
        (fun v => v) (fun v => v) (· + ·) [1, 2, 3, 7] =
      (reduceRow (· + ·)
        ((maskToNeutral [1, 2, 3, 7] 3 (0 : Int)).map (fun v => v))).map
          (fun v => v) :=
  ((claim_C7_reduce_masking
      { operandCount := 2, reduceDimensions := [0], operandRank := 1,
        rowLen := 3, initOpcode := HloOpcode.constant,
        initInnerOpcode := HloOpcode.constant,
        initInnerTypeIsBF16 := false, initDestTypeIsF32 := false,
        neutral := (0 : Int) }
      (fun v => v) (fun v => v) (· + ·) [1, 2, 3, 7]
      rfl rfl (by decide) (Or.inr rfl)).2.1 (by decide))

/-- C8: in both the 3-term and 6-term mixed-precision dot emulations,
the accumulated correction terms pass through the non-finite guard —
a non-finite per-element value is replaced by the additive identity
zero — before the final high-by-high dot is accumulated; consequently
pairing operand halves `(+∞, 0)` (e.g. `lhs = 1.0`, `rhs = +∞`, whose
residual halves are `0` and NaN) does not propagate NaN into the
accumulator: the guarded result is `+∞`, not NaN, in both variants. -/
theorem claim_C8_nonfinite_guard (lh lm ll rh rm rl acc : FVal) :
    (Emit3xBfloat16MatMul lh ll rh rl acc =
      fadd acc (dotStep lh rh
        (if CheckFiniteF32 (correction3x lh ll rh rl) then
          correction3x lh ll rh rl
        else FVal.finite 0))) ∧
    (Emit6xBfloat16MatMul lh lm ll rh rm rl acc =
      fadd acc (dotStep lh rh
        (if CheckFiniteF32 (correction6x lh lm ll rh rm rl) then
          correction6x lh lm ll rh rm rl
        else FVal.finite 0))) ∧
    (correction3x (FVal.finite 1) (FVal.finite 0) FVal.posInf
      FVal.nan).isNan = true ∧
    Emit3xBfloat16MatMul (FVal.finite 1) (FVal.finite 0) FVal.posInf
      FVal.nan (FVal.finite 0) = FVal.posInf ∧
    (Emit3xBfloat16MatMul (FVal.finite 1) (FVal.finite 0) FVal.posInf
      FVal.nan (FVal.finite 0)).isNan = false ∧
    (correction6x (FVal.finite 1) (FVal.finite 0) (FVal.finite 0)
      FVal.posInf FVal.nan FVal.nan).isNan = true ∧
    Emit6xBfloat16MatMul (FVal.finite 1) (FVal.finite 0)
      (FVal.finite 0) FVal.posInf FVal.nan FVal.nan
      (FVal.finite 0) = FVal.posInf ∧
    (Emit6xBfloat16MatMul (FVal.finite 1) (FVal.finite 0)
      (FVal.finite 0) FVal.posInf FVal.nan FVal.nan
      (FVal.finite 0)).isNan = false := by
  refine ⟨rfl, rfl, ?_, ?_, ?_, ?_, ?_, ?_⟩ <;> decide

/-- Counterexample for C5: the claim quantifies over every `limits`
list, but for the non-sorted limits `[10, 5]` at `index = 7` the
smallest `j` with `index < limits[j]` is `j = 0` (since `7 < 10`), so
the claim demands `choices[0] = 100`; `EmitMultiSelect` instead
returns `choices[2] = 300`, because each later select overrides the
earlier ones. -/
theorem claim_C5_counterexample :
    ([100, 200, 300] : List Int).length = ([10, 5] : List Int).length + 1 ∧
    cascadeSelectSpec 7 [10, 5] [100, 200, 300] = 100 ∧
    EmitMultiSelect 7 [10, 5] [100, 200, 300] = some 300 ∧
    EmitMultiSelect 7 [10, 5] [100, 200, 300] ≠
      some (cascadeSelectSpec 7 [10, 5] [100, 200, 300]) := by
  refine ⟨rfl, ?_, ?_, ?_⟩
  · simp [cascadeSelectSpec]
  · simp [EmitMultiSelect, multiSelectFold]
  · simp [EmitMultiSelect, multiSelectFold, cascadeSelectSpec]

/-- C5 (amended): for `limits` that are non-decreasing — as the
cumulative concatenation boundaries always are — `EmitMultiSelect`
agrees with the cascading less-than selection: it returns `choices[j]`
for the smallest `j` with `index < limits[j]`, and `choices.back()`
when no limit exceeds the index; in particular with cumulative
boundaries `[64, 192]` and block offset `130` it selects the entries of
operand index 1. -/
theorem claim_C5_multi_select (index : Int) (limits choices : List Int)
    (hlen : choices.length = limits.length + 1)
    (hsorted : limits.Pairwise (· ≤ ·)) :
    EmitMultiSelect index limits choices =
      some (cascadeSelectSpec index limits choices) ∧
    (∀ b0 b1 b2 : Int,
      EmitMultiSelect 130 [64, 192] [b0, b1, b2] = some b1) := by
  constructor
  · unfold EmitMultiSelect
    rw [if_pos hlen]
    match choices, hlen with
    | c0 :: cs, hlen =>
      have hcs : cs.length = limits.length := by
        simpa using hlen
      exact congrArg some
        (multiSelectFold_eq_cascade index limits c0 cs hcs hsorted)
  · intro b0 b1 b2
    simp [EmitMultiSelect, multiSelectFold]

/-- Witness for C5: with sorted boundaries `[64, 192]`, offset `130`
and choices `[0, 1, 2]`, `EmitMultiSelect` returns the cascade's
answer. -/
theorem claim_C5_multi_select_witness :
    EmitMultiSelect 130 [64, 192] [0, 1, 2] =
      some (cascadeSelectSpec 130 [64, 192] [0, 1, 2]) :=
  (claim_C5_multi_select 130 [64, 192] [0, 1, 2] (by decide)
    (by simp)).1

/-- Counterexample for C6: the divisibility loop of
`EmitTensorPointer` runs only over the concatenated operands before the
last one; with block size 64 and two operands of sliced counts 64 and
33, the last operand's sliced count is not divisible by 64, yet the
function succeeds instead of returning the uncompilable-fusion
failure the claim demands. -/
theorem claim_C6_counterexample :
    (∃ f ∈ [IterationSpecFragment.mk 1 64 0 64,
            IterationSpecFragment.mk 1 33 0 33],
      f.sliced_count % 64 ≠ 0) ∧
    EmitTensorPointerConcatCheck
      [IterationSpecFragment.mk 1 64 0 64,
       IterationSpecFragment.mk 1 33 0 33] 64 = Except.ok [64] := by
  constructor
  · exact ⟨IterationSpecFragment.mk 1 33 0 33, by simp, by decide⟩
  · rfl

/-- C6 (amended): `EmitTensorPointer` returns a failure from the
concatenation-boundary loop iff some concatenated operand other than
the last has a sliced count along the concatenated dimension that is
not divisible by the block size, and any such failure is the
distinguished uncompilable-fusion status (a cancelled status carrying
the `kUncompilableFusion` payload), not a generic error. -/
theorem claim_C6_concat_divisibility
    (operandFragments : List IterationSpecFragment) (block_size : Nat) :
    ((∃ e, EmitTensorPointerConcatCheck operandFragments block_size =
        Except.error e) ↔
      ∃ f ∈ operandFragments.dropLast, f.sliced_count % block_size ≠ 0) ∧
    (∀ e, EmitTensorPointerConcatCheck operandFragments block_size =
        Except.error e →
      e = UncompilableMatmul ∧ e.code = StatusCode.cancelled ∧
        e.payload = some StatusPayload.uncompilableFusion) := by
  constructor
  · exact concatBoundariesLoop_error_iff operandFragments.dropLast
      block_size
  · intro e he
    have := concatBoundariesLoop_error_eq operandFragments.dropLast
      block_size e he
    exact ⟨this, by rw [this]; rfl, by rw [this]; rfl⟩

/-- Witness for C6 (amended): with block size 64 and sliced counts
`[64, 33]` no failure is produced (the non-divisible operand is last),
while with sliced counts `[33, 64]` the uncompilable-fusion failure is
produced. -/
theorem claim_C6_concat_divisibility_witness :
    ¬ (∃ f ∈ ([IterationSpecFragment.mk 1 33 0 33,
          IterationSpecFragment.mk 1 64 0 64] :
            List IterationSpecFragment).dropLast,
        f.sliced_count % 64 ≠ 0) ∨
    (∃ e, EmitTensorPointerConcatCheck
        [IterationSpecFragment.mk 1 33 0 33,
         IterationSpecFragment.mk 1 64 0 64] 64 = Except.error e) :=
  Or.inr ((claim_C6_concat_divisibility
      [IterationSpecFragment.mk 1 33 0 33,
       IterationSpecFragment.mk 1 64 0 64] 64).1.mpr
    ⟨IterationSpecFragment.mk 1 33 0 33, by simp, by decide⟩)

/-- C9: the pre-flight complexity check of `EmitMatMul` rejects a tiling
configuration with a resource-exhaustion status iff
`(block_m*block_n + (block_m+block_n)*block_k) / num_warps` (integer
division) exceeds 9000, and accepts every configuration at or below the
ceiling. -/
theorem claim_C9_complexity_heuristic (config : TritonGemmConfig) :
    (CheckGemmTilingComplexityHeuristic config =
        Except.error ResourceExhaustedStatus ↔
      9000 < (config.block_m * config.block_n +
        (config.block_m + config.block_n) * config.block_k) /
          config.num_warps) ∧
    (CheckGemmTilingComplexityHeuristic config = Except.ok () ↔
      (config.block_m * config.block_n +
        (config.block_m + config.block_n) * config.block_k) /
          config.num_warps ≤ 9000) := by
  unfold CheckGemmTilingComplexityHeuristic complexityHeuristicValue
    kComplexityHeuristicLimit
  constructor
  · constructor
    · intro h
      by_contra hc
      simp [if_neg (by omega : ¬ ((config.block_m * config.block_n +
        (config.block_m + config.block_n) * config.block_k) /
          config.num_warps > 9000))] at h
    · intro h
      simp [if_pos h]
  · constructor
    · intro h
      by_contra hc
      simp [if_pos (by omega : (config.block_m * config.block_n +
        (config.block_m + config.block_n) * config.block_k) /
          config.num_warps > 9000)] at h
    · intro h
      simp [if_neg (by omega : ¬ ((config.block_m * config.block_n +
        (config.block_m + config.block_n) * config.block_k) /
          config.num_warps > 9000))]

/-- C10: `EmitMatMul` selects 64-bit indexing iff the LHS element count,
the RHS element count, or the output element count times `split_k`
exceeds `INT_MAX`; in all other cases the index type is 32-bit. -/
theorem claim_C10_index_bit_width (lhsShape rhsShape outShape : List Nat)
    (split_k : Nat) :
    (indexTypeBitWidth lhsShape rhsShape outShape split_k = 64 ↔
      (ElementsIn lhsShape > INT_MAX ∨ ElementsIn rhsShape > INT_MAX ∨
        ElementsIn outShape * split_k > INT_MAX)) ∧
    (indexTypeBitWidth lhsShape rhsShape outShape split_k = 32 ↔
      ¬ (ElementsIn lhsShape > INT_MAX ∨ ElementsIn rhsShape > INT_MAX ∨
        ElementsIn outShape * split_k > INT_MAX)) := by
  unfold indexTypeBitWidth use_64bit_indexing
  by_cases h1 : ElementsIn lhsShape > INT_MAX <;>
    by_cases h2 : ElementsIn rhsShape > INT_MAX <;>
      by_cases h3 : ElementsIn outShape * split_k > INT_MAX <;>
        simp [h1, h2, h3]

end Triton
